import Mathlib

/-!
Shallow embedding of the `brightr` backlight utility.

The repository has three Rust source files:
  * `src/lib.rs` — the library: `Backlight`, `find_first_backlight`,
    `use_specific_backlight`, `read_backlight_settings`, integer percentage
    converters, and `connect_and_set_brightness` (which asserts
    `new_value <= backlight.max`).
  * `src/main.rs` — an older CLI whose `get` path computes
    `current * 100 / max` with `u32` integer division.
  * `examples/brightr.rs` — the current CLI: reads `(current, max)`, maps to
    user units (raw, or percent via `f64` gamma converters), resolves the
    subcommand with strict ("picky") pre-checks and saturating arithmetic,
    then clamps the raw target to `[args.min, bl.max]` before applying it.

Machine integers (`u32`) are modelled as `Nat` with explicit `% 2 ^ 32`
where Rust truncates (`as u32` casts) and explicit saturation where Rust
saturates.  Panics (`clamp` with `min > max`, integer division by zero,
a failed `assert!`) are modelled as an explicit `panicked` outcome or as
`Option.none`.  The `f64` gamma converters of `examples/brightr.rs` are
kept abstract: the resolver model takes the two conversion functions as
parameters, since every claim about the resolver is independent of the
concrete conversion values.
-/

/-- `2 ^ 32`, the modulus of Rust's `u32` arithmetic. -/
def u32Mod : Nat := 2 ^ 32

/-- `u32::MAX`, the ceiling of Rust's saturating `u32` arithmetic. -/
def u32Max : Nat := 2 ^ 32 - 1

/-- Rust `u32::saturating_add` on values below `2 ^ 32`. -/
def satAdd (a b : Nat) : Nat := min (a + b) u32Max

/-- Rust `u32::saturating_sub`: truncated subtraction, which is exactly
`Nat` subtraction. -/
def satSub (a b : Nat) : Nat := a - b

/-- Rust `Ord::clamp`: `assert!(min <= max)` then clamp.  The panic on
`min > max` is modelled as `none`. -/
def rustClamp (x lo hi : Nat) : Option Nat :=
  if lo ≤ hi then some (if x < lo then lo else if hi < x then hi else x)
  else none

/-- Rust `str::trim` on the character list: drop whitespace from both
ends. -/
def trimChars (l : List Char) : List Char :=
  ((l.dropWhile Char.isWhitespace).reverse.dropWhile Char.isWhitespace).reverse

/-- Rust `str::trim` as a `String` operation. -/
def rustTrim (s : String) : String := ⟨trimChars s.data⟩

/-- Rust `str::parse::<u32>()`: an optional leading `+`, then one or more
ASCII digits, value below `2 ^ 32`; anything else is a parse error. -/
def rustParseU32 (s : String) : Option Nat :=
  let t := match s.data with
    | '+' :: rest => rest
    | l => l
  if t.isEmpty then none
  else if t.all Char.isDigit then
    let n := t.foldl (fun acc c => acc * 10 + (c.toNat - 48)) 0
    if n < u32Mod then some n else none
  else none

/-- `Backlight` from `src/lib.rs`: a device name and the raw maximum. -/
structure Backlight where
  name : String
  max : Nat
deriving DecidableEq

/-- `Backlight::from_percent` from `src/lib.rs`:
`(u64::from(pct) * u64::from(self.max) / 100) as u32`.
The `u64` product never overflows for `u32` inputs; the final `as u32`
cast truncates modulo `2 ^ 32`. -/
def Backlight.from_percent (bl : Backlight) (pct : Nat) : Nat :=
  pct * bl.max / 100 % u32Mod

/-- `Backlight::to_percent` from `src/lib.rs`:
`(u64::from(value) * 100 / u64::from(self.max)) as u32`.
Integer division by zero panics in Rust, modelled as `none`. -/
def Backlight.to_percent (bl : Backlight) (value : Nat) : Option Nat :=
  if bl.max = 0 then none else some (value * 100 / bl.max % u32Mod)

/-- Round trip of the `src/lib.rs` converters: `from_percent (to_percent raw)`. -/
def libRoundTrip (mx raw : Nat) : Option Nat :=
  (Backlight.to_percent ⟨"roundtrip", mx⟩ raw).map
    (fun p => Backlight.from_percent ⟨"roundtrip", mx⟩ p)

/-- A directory entry under `/sys/class/backlight`, as far as the program
observes it: its name and the contents of its two brightness files
(`none` models an I/O failure reading the file). -/
structure Dirent where
  name : String
  brightness : Option String
  maxBrightness : Option String
deriving DecidableEq

/-- The library's `Error` enum (`src/lib.rs`).  I/O error values are
abstracted to a numeric code; the DBus variant is irrelevant to the core
and omitted. -/
inductive LibError where
  | eternalDarkness
  | sysAccess (code : Nat)
  | access (path : String)
  | parsing (path : String) (text : String)
deriving DecidableEq

/-- `read_backlight_settings` from `src/lib.rs`: read and parse
`brightness` then `max_brightness`, trimming whitespace; the first
failure aborts with an error naming the file.  No relation between the
two parsed values is checked. -/
def readBacklightSettings (d : Dirent) : Except LibError (Nat × Nat) :=
  match d.brightness with
  | none => .error (.access (d.name ++ "/brightness"))
  | some s =>
    match rustParseU32 (rustTrim s) with
    | none => .error (.parsing (d.name ++ "/brightness") (rustTrim s))
    | some current =>
      match d.maxBrightness with
      | none => .error (.access (d.name ++ "/max_brightness"))
      | some t =>
        match rustParseU32 (rustTrim t) with
        | none => .error (.parsing (d.name ++ "/max_brightness") (rustTrim t))
        | some mx => .ok (current, mx)

/-- The successful outcome of trying one directory entry: the `Backlight`
built from its name and parsed max, plus the parsed current value. -/
def tryDirent (d : Dirent) : Option (Backlight × Nat) :=
  match readBacklightSettings d with
  | .ok (current, mx) => some (⟨d.name, mx⟩, current)
  | .error _ => none

/-- The warning printed for a skipped entry in `find_first_backlight`. -/
def skipMsg (d : Dirent) : String :=
  "skipping backlight-like device at " ++ d.name

/-- The scan loop of `find_first_backlight`: the first entry whose two
files read and parse wins; a failing entry logs a warning and the scan
continues; an error produced by the directory iterator itself is fatal
(`SysAccess`); exhaustion yields `EternalDarkness`.  Returns the result
together with the warnings emitted, in order. -/
def scanEntries : List (Except Nat Dirent) →
    Except LibError (Backlight × Nat) × List String
  | [] => (.error .eternalDarkness, [])
  | .error e :: _ => (.error (.sysAccess e), [])
  | .ok d :: rest =>
    match readBacklightSettings d with
    | .ok (current, mx) => (.ok (⟨d.name, mx⟩, current), [])
    | .error _ =>
      let r := scanEntries rest
      (r.1, skipMsg d :: r.2)

/-- `find_first_backlight` from `src/lib.rs`.  The input models
`fs::read_dir("/sys/class/backlight")`: either an access error (code) or
the listing in directory-iteration order. -/
def find_first_backlight (dir : Except Nat (List (Except Nat Dirent))) :
    Except LibError (Backlight × Nat) × List String :=
  match dir with
  | .error e => (.error (.sysAccess e), [])
  | .ok entries => scanEntries entries

/-- The policy flags of `examples/brightr.rs` relevant to resolution:
`--raw`, `--min` (the raw floor), `--picky`.  The gamma exponent enters
only through the abstract conversion functions. -/
structure Policy where
  raw : Bool
  min : Nat
  picky : Bool
deriving DecidableEq

/-- The subcommands of `examples/brightr.rs`. -/
inductive SubCmd where
  | get
  | set (value : Nat)
  | up (amt : Nat)
  | down (amt : Nat)
deriving DecidableEq

/-- Whether a subcommand is `Get`. -/
def SubCmd.isGet : SubCmd → Bool
  | .get => true
  | _ => false

/-- The message of the `bail!` on a picky `up` at the top of the range. -/
def increaseMsg : String := "cannot increase brightness past range for device"

/-- The message of the `bail!` on a picky `down` at or below the floor,
with `args.min` formatted into it. -/
def decreaseMsg (m : Nat) : String :=
  "cannot decrease brightness past " ++ toString m

/-- What one run of the CLI does after the device has been read:
print current/max and exit (`get`), hand a raw target to the
brightness-apply collaborator (`apply`), bail out with an error message
(`fail`), or panic (`panicked`). -/
inductive Outcome where
  | get (currentUser maxUser : Nat)
  | apply (target : Nat)
  | fail (msg : String)
  | panicked
deriving DecidableEq

/-- The shared tail of every non-`get` branch of `examples/brightr.rs`:
`.clamp(args.min, bl.max)` on the raw target (panicking when the floor
exceeds the max), then `connect_and_set_brightness`, whose
`assert!(new_value <= backlight.max)` is also modelled. -/
def finishTarget (preRaw lo hi : Nat) : Outcome :=
  match rustClamp preRaw lo hi with
  | some t => if t ≤ hi then .apply t else .panicked
  | none => .panicked

/-- `main` of `examples/brightr.rs` after the device read, parametrised
by the two `f64` conversion functions (`to_percent bl e`, `from_percent
bl e`), which the resolver only ever composes:

  * user units: `current` and `bl.max` when `--raw`, else
    `(to_percent current, 100)`;
  * `get` prints and returns;
  * `set value` takes `value` as the user-unit target;
  * `up amt` bails when picky and `current == bl.max`, else saturating-adds
    in user units;
  * `down amt` bails when picky and `current <= args.min`, else
    saturating-subtracts in user units;
  * every non-`get` branch converts the user-unit target back to raw
    (identity when `--raw`) and runs `finishTarget`. -/
def runMain (toPct fromPct : Nat → Nat) (p : Policy) (cmd : SubCmd)
    (current max : Nat) : Outcome :=
  let currentUser := if p.raw then current else toPct current
  let maxUser := if p.raw then max else 100
  match cmd with
  | .get => .get currentUser maxUser
  | .set value =>
    finishTarget (if p.raw then value else fromPct value) p.min max
  | .up amt =>
    if p.picky && current == max then .fail increaseMsg
    else
      let targetUser := satAdd currentUser amt
      finishTarget (if p.raw then targetUser else fromPct targetUser) p.min max
  | .down amt =>
    if p.picky && decide (current ≤ p.min) then .fail (decreaseMsg p.min)
    else
      let targetUser := satSub currentUser amt
      finishTarget (if p.raw then targetUser else fromPct targetUser) p.min max

/-- The raw target each non-`get` branch of `examples/brightr.rs` feeds
into the final clamp (the "computed" pre-clamp value). -/
def preClampTarget (toPct fromPct : Nat → Nat) (p : Policy) (cmd : SubCmd)
    (current max : Nat) : Nat :=
  let currentUser := if p.raw then current else toPct current
  match cmd with
  | .get => 0
  | .set value => if p.raw then value else fromPct value
  | .up amt =>
    let targetUser := satAdd currentUser amt
    if p.raw then targetUser else fromPct targetUser
  | .down amt =>
    let targetUser := satSub currentUser amt
    if p.raw then targetUser else fromPct targetUser

/-- Whether a command passes the strict ("picky") pre-checks of
`examples/brightr.rs`: `up` is rejected when picky and `current == max`,
`down` when picky and `current <= args.min`; `get` and `set` always pass. -/
def strictPass (p : Policy) (cmd : SubCmd) (current max : Nat) : Bool :=
  match cmd with
  | .up _ => !(p.picky && current == max)
  | .down _ => !(p.picky && decide (current ≤ p.min))
  | _ => true

/-- The `get` branch of the older CLI `src/main.rs`: in raw mode print
`current/max`; otherwise `current * 100 / max` with `u32` arithmetic,
whose division panics when `max = 0` (modelled as `none`; the `u32`
multiplication wraps in release builds, modelled by `% 2 ^ 32`). -/
def mainRsGetOutput (raw : Bool) (current max : Nat) : Option (Nat × Nat) :=
  if raw then some (current, max)
  else if max = 0 then none
  else some (current * 100 % u32Mod / max % u32Mod, 100)

/-- When the floor does not exceed the max, the shared final step clamps
and applies, and the applied value is inside `[lo, hi]`. -/
theorem finishTarget_spec (preRaw lo hi : Nat) (h : lo ≤ hi) :
    ∃ t, finishTarget preRaw lo hi = .apply t
      ∧ rustClamp preRaw lo hi = some t ∧ lo ≤ t ∧ t ≤ hi := by
  refine ⟨if preRaw < lo then lo else if hi < preRaw then hi else preRaw,
    ?_, ?_, ?_, ?_⟩
  · unfold finishTarget rustClamp
    rw [if_pos h]
    have hle : (if preRaw < lo then lo else if hi < preRaw then hi else preRaw) ≤ hi := by
      split_ifs with h1 h2
      · exact h
      · exact Nat.le_refl hi
      · exact Nat.le_of_not_lt h2
    simp [hle]
  · unfold rustClamp
    rw [if_pos h]
  · split_ifs with h1 h2
    · exact Nat.le_refl lo
    · exact h
    · exact Nat.le_of_not_lt h1
  · split_ifs with h1 h2
    · exact h
    · exact Nat.le_refl hi
    · exact Nat.le_of_not_lt h2

/-- When the floor exceeds the max, the shared final step panics in the
clamp. -/
theorem finishTarget_panics (preRaw lo hi : Nat) (h : hi < lo) :
    finishTarget preRaw lo hi = .panicked := by
  unfold finishTarget rustClamp
  rw [if_neg (Nat.not_le_of_lt h)]

/-- A negated `Bool` being true means the underlying `Bool` is false. -/
theorem bool_not_true {b : Bool} (h : (!b) = true) : b = false := by
  cases b
  · rfl
  · exact absurd h (by decide)

/-- Claim C1: for every non-Get operation that passes the strict-mode
pre-check, assuming the floor does not exceed the device max, the raw
value handed to the brightness-apply collaborator is exactly
`clamp(computed, floor, max)`, and in particular lies in `[floor, max]`
for every amount. -/
theorem c1_final_clamp (toPct fromPct : Nat → Nat) (p : Policy) (cmd : SubCmd)
    (current max : Nat) (hfm : p.min ≤ max) (hget : cmd.isGet = false)
    (hstrict : strictPass p cmd current max = true) :
    ∃ t, runMain toPct fromPct p cmd current max = .apply t
      ∧ rustClamp (preClampTarget toPct fromPct p cmd current max) p.min max
          = some t
      ∧ p.min ≤ t ∧ t ≤ max := by
  cases cmd with
  | get => simp [SubCmd.isGet] at hget
  | set value =>
    simpa [runMain, preClampTarget] using
      finishTarget_spec (if p.raw then value else fromPct value) p.min max hfm
  | up amt =>
    have hc : (p.picky && current == max) = false :=
      bool_not_true (show (!(p.picky && current == max)) = true from hstrict)
    simp only [runMain, preClampTarget, hc, Bool.false_eq_true, if_false]
    exact finishTarget_spec _ p.min max hfm
  | down amt =>
    have hc : (p.picky && decide (current ≤ p.min)) = false :=
      bool_not_true
        (show (!(p.picky && decide (current ≤ p.min))) = true from hstrict)
    simp only [runMain, preClampTarget, hc, Bool.false_eq_true, if_false]
    exact finishTarget_spec _ p.min max hfm

/-- Witness for C1: raw-mode `set 3` on a device with max 10 and floor 1
applies the clamped target. -/
theorem c1_final_clamp_witness :
    ∃ t, runMain id id ⟨true, 1, false⟩ (.set 3) 2 10 = .apply t
      ∧ rustClamp (preClampTarget id id ⟨true, 1, false⟩ (.set 3) 2 10) 1 10
          = some t
      ∧ 1 ≤ t ∧ t ≤ 10 :=
  c1_final_clamp id id ⟨true, 1, false⟩ (.set 3) 2 10 (by decide) (by decide)
    (by decide)

/-- Claim C7: `Get` prints current/max in the active unit (raw, or
percent over 100), and terminates successfully with no apply call, no
failure, and no panic, for every policy and every read state. -/
theorem c7_get_prints_and_stops (toPct fromPct : Nat → Nat) (p : Policy)
    (current max : Nat) :
    runMain toPct fromPct p .get current max
      = .get (if p.raw then current else toPct current)
          (if p.raw then max else 100)
    ∧ (∀ t, runMain toPct fromPct p .get current max ≠ .apply t)
    ∧ (∀ m, runMain toPct fromPct p .get current max ≠ .fail m)
    ∧ runMain toPct fromPct p .get current max ≠ .panicked := by
  refine ⟨by simp [runMain], fun t => by simp [runMain],
    fun m => by simp [runMain], by simp [runMain]⟩

/-- Claim C9 (amended): when the configured floor strictly exceeds the
device max, every non-Get operation that passes the strict-mode
pre-check panics in the final clamp. -/
theorem c9_floor_above_max_panics (toPct fromPct : Nat → Nat) (p : Policy)
    (cmd : SubCmd) (current max : Nat) (hfm : max < p.min)
    (hget : cmd.isGet = false)
    (hstrict : strictPass p cmd current max = true) :
    runMain toPct fromPct p cmd current max = .panicked := by
  cases cmd with
  | get => simp [SubCmd.isGet] at hget
  | set value =>
    simp only [runMain]
    exact finishTarget_panics _ p.min max hfm
  | up amt =>
    have hc : (p.picky && current == max) = false :=
      bool_not_true (show (!(p.picky && current == max)) = true from hstrict)
    simp only [runMain, hc, Bool.false_eq_true, if_false]
    exact finishTarget_panics _ p.min max hfm
  | down amt =>
    have hc : (p.picky && decide (current ≤ p.min)) = false :=
      bool_not_true
        (show (!(p.picky && decide (current ≤ p.min))) = true from hstrict)
    simp only [runMain, hc, Bool.false_eq_true, if_false]
    exact finishTarget_panics _ p.min max hfm

/-- Witness for the amended C9: raw-mode `set 4` with floor 10 on a
device with max 5 panics. -/
theorem c9_floor_above_max_panics_witness :
    runMain id id ⟨true, 10, false⟩ (.set 4) 3 5 = .panicked :=
  c9_floor_above_max_panics id id ⟨true, 10, false⟩ (.set 4) 3 5 (by decide)
    (by decide) (by decide)

/-- Counterexample to C9 as stated: with floor 10 above max 5, a picky
`up` at the top of the range bails with the boundary error instead of
panicking, so not every non-Get operation panics. -/
theorem c9_counterexample :
    5 < (10 : Nat)
    ∧ SubCmd.isGet (.up 1) = false
    ∧ runMain id id ⟨true, 10, true⟩ (.up 1) 5 5 = .fail increaseMsg
    ∧ Outcome.fail increaseMsg ≠ .panicked := by
  refine ⟨by decide, rfl, by decide, by decide⟩

/-- The two strict-mode boundary messages differ, whatever the configured
floor: they disagree at character 7 (`i` versus `d`). -/
theorem increaseMsg_ne_decreaseMsg (m : Nat) : increaseMsg ≠ decreaseMsg m := by
  intro h
  have h7 : increaseMsg.data[7]? = (decreaseMsg m).data[7]? := by rw [h]
  have l : increaseMsg.data[7]? = some 'i' := rfl
  have r : (decreaseMsg m).data[7]? = some 'd' := rfl
  rw [l, r] at h7
  exact absurd h7 (by decide)

/-- Claim C2: in picky mode, `up` at `current == max` fails with the
upper-bound message and `down` at `current <= floor` fails with the
lower-bound message; the messages are distinct, and a failing run never
reaches the brightness-apply collaborator. -/
theorem c2_picky_boundary_rejection (toPct fromPct : Nat → Nat) (p : Policy)
    (current max amtU amtD : Nat) (hp : p.picky = true) :
    (current = max →
      runMain toPct fromPct p (.up amtU) current max = .fail increaseMsg)
    ∧ (current ≤ p.min →
      runMain toPct fromPct p (.down amtD) current max
        = .fail (decreaseMsg p.min))
    ∧ increaseMsg ≠ decreaseMsg p.min
    ∧ (∀ t, Outcome.fail increaseMsg ≠ .apply t)
    ∧ (∀ t, Outcome.fail (decreaseMsg p.min) ≠ .apply t) := by
  refine ⟨?_, ?_, increaseMsg_ne_decreaseMsg p.min, fun t => by simp,
    fun t => by simp⟩
  · intro h
    simp [runMain, hp, h]
  · intro h
    simp [runMain, hp, h]

/-- Witness for C2: a picky device at `current = max = 5` with floor 5
rejects both directions with the two distinct messages. -/
theorem c2_picky_boundary_rejection_witness :
    ((5 : Nat) = 5 →
      runMain id id ⟨true, 5, true⟩ (.up 1) 5 5 = .fail increaseMsg)
    ∧ ((5 : Nat) ≤ 5 →
      runMain id id ⟨true, 5, true⟩ (.down 1) 5 5 = .fail (decreaseMsg 5))
    ∧ increaseMsg ≠ decreaseMsg 5
    ∧ (∀ t, Outcome.fail increaseMsg ≠ .apply t)
    ∧ (∀ t, Outcome.fail (decreaseMsg 5) ≠ .apply t) :=
  c2_picky_boundary_rejection id id ⟨true, 5, true⟩ 5 5 1 1 rfl

/-- Counterexample to C3 as stated: a device whose files read `10` and
`5` is accepted by `read_backlight_settings` with `current > max`; the
read performs no such invariant check. -/
theorem c3_counterexample :
    readBacklightSettings ⟨"intel_backlight", some "10", some "5"⟩ = .ok (10, 5)
    ∧ ¬ (10 : Nat) ≤ 5 :=
  ⟨rfl, by decide⟩

/-- Claim C3 (amended): a successful `read_backlight_settings` returns
exactly the two parsed values, with no relation between them enforced:
any pair that parses, including `current > max`, is accepted as-is. -/
theorem c3_read_returns_parsed_pair (n s t : String) (c m : Nat)
    (hs : rustParseU32 (rustTrim s) = some c)
    (ht : rustParseU32 (rustTrim t) = some m) :
    readBacklightSettings ⟨n, some s, some t⟩ = .ok (c, m) := by
  simp [readBacklightSettings, hs, ht]

/-- Witness for the amended C3: contents `" 10 "` and `"5"` parse and
are returned unchanged, even though current exceeds max. -/
theorem c3_read_returns_parsed_pair_witness :
    readBacklightSettings ⟨"bl0", some " 10 ", some "5"⟩ = .ok (10, 5) :=
  c3_read_returns_parsed_pair "bl0" " 10 " "5" 10 5 rfl rfl

/-- Counterexample to C4 as stated: with the repository's own linear
integer converters at `max = 255`, `up 10` from `current = 129` computes
pre-clamp target 153 (percent-space addition), while the claimed
raw-space formula `current + convert(amount)` gives 154. -/
theorem c4_counterexample :
    preClampTarget (fun v => v * 100 / 255 % u32Mod)
        (fun q => q * 255 / 100 % u32Mod) ⟨false, 0, false⟩ (.up 10) 129 255
      = 153
    ∧ satAdd 129 ((fun q => q * 255 / 100 % u32Mod) 10) = 154
    ∧ (153 : Nat) ≠ 154 :=
  ⟨by decide, by decide, by decide⟩

/-- Claim C4 (amended): in percentage mode, an `up` that passes the
strict pre-check computes its pre-clamp raw target as
`from_percent (saturating_add (to_percent current) amount)`: the current
raw value is converted to percent, the amount is added with saturating
addition in percent units, and the sum is converted back to raw. -/
theorem c4_up_percent_mode (toPct fromPct : Nat → Nat) (p : Policy)
    (current max amt : Nat) (hraw : p.raw = false)
    (hstrict : strictPass p (.up amt) current max = true) :
    preClampTarget toPct fromPct p (.up amt) current max
        = fromPct (satAdd (toPct current) amt)
      ∧ runMain toPct fromPct p (.up amt) current max
        = finishTarget (fromPct (satAdd (toPct current) amt)) p.min max := by
  have hc : (p.picky && current == max) = false :=
    bool_not_true (show (!(p.picky && current == max)) = true from hstrict)
  constructor
  · simp [preClampTarget, hraw]
  · simp [runMain, hraw, hc]

/-- Witness for the amended C4: the linear integer converters at
`max = 255`, `current = 129`, `up 10`. -/
theorem c4_up_percent_mode_witness :
    preClampTarget (fun v => v * 100 / 255 % u32Mod)
        (fun q => q * 255 / 100 % u32Mod) ⟨false, 0, false⟩ (.up 10) 129 255
        = (fun q => q * 255 / 100 % u32Mod)
            (satAdd ((fun v => v * 100 / 255 % u32Mod) 129) 10)
      ∧ runMain (fun v => v * 100 / 255 % u32Mod)
          (fun q => q * 255 / 100 % u32Mod) ⟨false, 0, false⟩ (.up 10) 129 255
        = finishTarget ((fun q => q * 255 / 100 % u32Mod)
            (satAdd ((fun v => v * 100 / 255 % u32Mod) 129) 10)) 0 255 :=
  c4_up_percent_mode (fun v => v * 100 / 255 % u32Mod)
    (fun q => q * 255 / 100 % u32Mod) ⟨false, 0, false⟩ 129 255 10 rfl
    (by decide)

/-- Claim C5: discovery returns the first directory entry whose two
readings parse, skipping every failing entry with a warning naming it;
an exhausted listing yields `EternalDarkness` and an inaccessible
directory yields the distinct `SysAccess` error. -/
theorem c5_first_match_discovery (entries : List Dirent) (e : Nat) :
    find_first_backlight (.error e) = (.error (.sysAccess e), [])
    ∧ LibError.sysAccess e ≠ LibError.eternalDarkness
    ∧ find_first_backlight (.ok (entries.map Except.ok)) =
        ((match entries.findSome? tryDirent with
          | some r => .ok r
          | none => .error .eternalDarkness),
         (entries.takeWhile (fun d => (tryDirent d).isNone)).map skipMsg) := by
  refine ⟨rfl, by simp, ?_⟩
  show scanEntries (entries.map Except.ok) = _
  induction entries with
  | nil => rfl
  | cons d rest ih =>
    rw [List.map_cons]
    cases hd : readBacklightSettings d with
    | ok pr =>
      obtain ⟨c, m⟩ := pr
      simp [scanEntries, tryDirent, hd, List.findSome?_cons, List.takeWhile_cons]
    | error err =>
      simp [scanEntries, tryDirent, hd, ih, List.findSome?_cons,
        List.takeWhile_cons]

set_option maxRecDepth 4000

/-- Over the whole range `0 < max ≤ 100`, `raw ≤ max`, the integer
converters' round trip is within 1 of the input (finite check). -/
theorem c6_dist_key : ∀ m, m < 101 → ∀ r, r < 101 → 0 < m → r ≤ m →
    Nat.dist (r * 100 / m % u32Mod * m / 100 % u32Mod) r ≤ 1 := by decide

/-- Over the same range, the round trip is exact whenever `max` divides
100 (finite check). -/
theorem c6_exact_key : ∀ m, m < 101 → ∀ r, r < 101 → 100 % m = 0 → r ≤ m →
    r * 100 / m % u32Mod * m / 100 % u32Mod = r := by decide

/-- Counterexample to C6 as stated: at `max = 1000`, `raw = 5` (a valid
raw value), the round trip returns 0, which differs from 5 by more
than 1. -/
theorem c6_counterexample :
    (5 : Nat) ≤ 1000
    ∧ libRoundTrip 1000 5 = some 0
    ∧ ¬ Nat.dist 0 5 ≤ 1 :=
  ⟨by decide, rfl, by decide⟩

/-- Claim C6 (amended): for `0 < max ≤ 100` and `raw ≤ max`, the linear
integer converters' round trip `from_percent (to_percent raw)` differs
from `raw` by at most 1, and is exact whenever `max` divides 100
evenly. -/
theorem c6_roundtrip_small_max (mx raw : Nat) (h0 : 0 < mx) (h100 : mx ≤ 100)
    (hraw : raw ≤ mx) :
    ∃ rt, libRoundTrip mx raw = some rt ∧ Nat.dist rt raw ≤ 1
      ∧ (100 % mx = 0 → rt = raw) := by
  refine ⟨raw * 100 / mx % u32Mod * mx / 100 % u32Mod, ?_, ?_, ?_⟩
  · simp [libRoundTrip, Backlight.to_percent, Backlight.from_percent, h0.ne']
  · exact c6_dist_key mx (by omega) raw (by omega) h0 hraw
  · intro hdiv
    exact c6_exact_key mx (by omega) raw (by omega) hdiv hraw

/-- Witness for the amended C6: `max = 50` divides 100, and `raw = 7`
round-trips exactly. -/
theorem c6_roundtrip_small_max_witness :
    ∃ rt, libRoundTrip 50 7 = some rt ∧ Nat.dist rt 7 ≤ 1
      ∧ (100 % 50 = 0 → rt = 7) :=
  c6_roundtrip_small_max 50 7 (by decide) (by decide) (by decide)

/-- Claim C10: a max-brightness file reading `0` is accepted by
`read_backlight_settings`; the library's `to_percent` then divides by
zero (a panic) for every value, as does the percentage-mode `get` path
of the older CLI. -/
theorem c10_zero_max_accepted_then_panics :
    readBacklightSettings ⟨"acpi_video0", some "5", some "0"⟩ = .ok (5, 0)
    ∧ (∀ v, Backlight.to_percent ⟨"acpi_video0", 0⟩ v = none)
    ∧ (∀ c, mainRsGetOutput false c 0 = none) :=
  ⟨rfl, fun v => rfl, fun c => rfl⟩
